import Mathlib

/-!
Shallow embedding of the extraction-and-merge engine of
`scripts/download-additional-data.py` (functions `extract_page_data`,
`find_feature_records`, `extract_place_info`, `find_coordinates`,
`find_place_id`, `round_coordinates`, `update_map_json`), together with
theorems settling the spec claims about it.

Modelling conventions:
* JSON-shaped values (`json.loads` output restricted to the array-literal
  page data) are the inductive `SValue` (null / bool / number / string /
  sequence).
* Python numbers are modelled as exact rationals (`ℚ`); `round(x, 5)` is
  modelled as exact decimal rounding with ties-to-even (Python's rounding
  mode).
* Depth-bounded recursions of the source are driven by an explicit fuel
  argument: a call at recursion depth `d` with source bound `B`
  (`if depth > B: return empty`) runs with fuel `B + 1 - d`, which is `0`
  exactly when `d > B`; the public wrappers keep the source's
  `(data, depth)` signature.
* The stdlib calls `json.loads` and `str.decode('unicode_escape')` are
  external collaborators of the script; `extract_page_data` is therefore
  parametrised by a `parse` and a `decode` function.
-/

/-- Structured value: the universal representation of the parsed page data
(null, boolean, number, string, or ordered sequence). -/
inductive SValue where
  | null : SValue
  | bool (b : Bool) : SValue
  | num (q : ℚ) : SValue
  | str (s : String) : SValue
  | arr (l : List SValue) : SValue

/-- Python truthiness of an `SValue` (used by `if name:` / `if not place_id:`
in the source). -/
def pyTruthy : SValue → Bool
  | .null => false
  | .bool b => b
  | .num q => !(q == 0)
  | .str s => !(s == "")
  | .arr l => !l.isEmpty

/-- Test for `isinstance(x, list)`. -/
def SValue.isArr : SValue → Bool
  | .arr _ => true
  | _ => false

/-- Character class `[A-F0-9]` of the feature-id pattern. -/
def isUpHexDigit (c : Char) : Bool :=
  ('A' ≤ c && c ≤ 'F') || ('0' ≤ c && c ≤ '9')

/-- Modelled from the spec's words ("a string matching exactly 16 characters
from the hex alphabet (uppercase A–F and 0–9)"); used to compare the spec's
shape test against the code's regex. -/
def spec_hex16 (s : String) : Bool :=
  (s.toList.length == 16) && s.toList.all isUpHexDigit

/-- Model of Python `re.match(r'^[A-F0-9]{16}$', s)` being truthy.
Python's `$` anchor matches at the end of the string and also just before a
newline at the end of the string, so a 16-hex-digit string followed by one
trailing `'\n'` is accepted as well. -/
def reMatchHex16 (s : String) : Bool :=
  if s.toList.length = 16 then s.toList.all isUpHexDigit
  else if s.toList.length = 17 then
    (s.toList.take 16).all isUpHexDigit && (s.toList.getD 16 ' ' == '\n')
  else false

/-- Shape test of `find_feature_records`: a list with at least 6 elements
whose first element is a string matching the feature-id regex. -/
def isFeatureShape (v : SValue) : Bool :=
  match v with
  | .arr l =>
      if 6 ≤ l.length then
        match l.headD .null with
        | .str s => reMatchHex16 s
        | _ => false
      else false
  | _ => false

/-- Fuel-driven body of `find_feature_records`; fuel `0` corresponds to the
source's `depth > 20` early return. -/
def ffr : ℕ → SValue → List SValue
  | 0, _ => []
  | fuel + 1, data =>
      match data with
      | .arr l =>
          if isFeatureShape (.arr l) then [.arr l]
          else (l.map (fun x => match x with
                  | .arr m => ffr fuel (.arr m)
                  | _ => [])).flatten
      | _ => []

/-- Model of `find_feature_records(data, depth)` (source lines 151–182):
recursively search for feature records, yielding a matching sequence as-is
and otherwise descending into the sequence-valued elements, stopping once
`depth > 20`. -/
def find_feature_records (data : SValue) (depth : ℕ) : List SValue :=
  ffr (21 - depth) data

/-- Numeric view used by `isinstance(x, (int, float))`: Python `bool` is a
subclass of `int`, so booleans count as numbers `1` / `0`. -/
def toNumQ : SValue → Option ℚ
  | .num q => some q
  | .bool b => some (if b then 1 else 0)
  | _ => none

/-- Pair test of `find_coordinates`: a two-element list of numbers whose
first member is a valid latitude and second a valid longitude. -/
def pairCheck (l : List SValue) : Option (ℚ × ℚ) :=
  if l.length = 2 then
    match toNumQ (l.getD 0 .null), toNumQ (l.getD 1 .null) with
    | some lat, some lng =>
        if -90 ≤ lat ∧ lat ≤ 90 ∧ -180 ≤ lng ∧ lng ≤ 180 then some (lat, lng) else none
    | _, _ => none
  else none

/-- Fuel-driven body of `find_coordinates`; fuel `0` corresponds to the
source's `depth > 10` early return. -/
def fco : ℕ → SValue → Option (ℚ × ℚ)
  | 0, _ => none
  | fuel + 1, g =>
      match g with
      | .arr l =>
          match pairCheck l with
          | some c => some c
          | none =>
              l.foldr (fun x acc =>
                match (match x with | .arr _ => fco fuel x | _ => none) with
                | some c => some c
                | none => acc) none
      | _ => none

/-- Model of `find_coordinates(geometry, depth)` (source lines 254–277). -/
def find_coordinates (geometry : SValue) (depth : ℕ) : Option (ℚ × ℚ) :=
  fco (11 - depth) geometry

/-- Test that the first list is an initial segment of the second (model of
`str.startswith`). -/
def listStarts : List Char → List Char → Bool
  | [], _ => true
  | _ :: _, [] => false
  | c :: cs, d :: ds => (c == d) && listStarts cs ds

/-- Recognized start of a Google Place ID: `'ChIJ'` or `'Ej'`
(`s.startswith('ChIJ') or s.startswith('Ej')`). -/
def hasPidStart (s : String) : Bool :=
  listStarts "ChIJ".toList s.toList || listStarts "Ej".toList s.toList

/-- Fuel-driven body of `find_place_id`; fuel `0` corresponds to the
source's `depth > 15` early return.  The `r = ""` branch models the
truthiness test `if result:` in the source loop. -/
def fpi : ℕ → SValue → Option String
  | 0, _ => none
  | fuel + 1, d =>
      match d with
      | .str s => if hasPidStart s then some s else none
      | .arr l =>
          l.foldr (fun x acc =>
            match fpi fuel x with
            | some r => if r = "" then acc else some r
            | none => acc) none
      | _ => none

/-- Model of `find_place_id(data, depth)` (source lines 280–296). -/
def find_place_id (data : SValue) (depth : ℕ) : Option String :=
  fpi (16 - depth) data

/-- State of the field-scanning loop of `extract_place_info`
(`name`, `description`, `place_id`). -/
structure ScanState where
  name : Option SValue
  description : Option SValue
  place_id : Option String

/-- One iteration of the field loop of `extract_place_info` (source lines
211–231): tuples `['name', [v], ...]` and `['description', [v], ...]` set the
name / description, and a tuple `[null, s, x, ...]` whose second element is a
string with a recognized place-id start sets the place id. -/
def scanField (st : ScanState) (f : SValue) : ScanState :=
  match f with
  | .arr (fn :: snd :: rest) =>
      match fn with
      | .str fname =>
          if fname = "name" then
            match snd with
            | .arr (v :: _) => { st with name := some v }
            | _ => st
          else if fname = "description" then
            match snd with
            | .arr (v :: _) => { st with description := some v }
            | _ => st
          else st
      | .null =>
          match rest with
          | [] => st
          | _ :: _ =>
              match snd with
              | .str s => if hasPidStart s then { st with place_id := some s } else st
              | _ => st
      | _ => st
  | _ => st

/-- Field-scanning loop of `extract_place_info` over the fields list. -/
def scanFields (fl : List SValue) : ScanState :=
  fl.foldl scanField ⟨none, none, none⟩

/-- Place-id computation of `extract_place_info`: the tuple-scan result,
falling back (`if not place_id:`) to the recursive search over the whole
fields list. -/
def extractPid (fl : List SValue) : Option String :=
  match (scanFields fl).place_id with
  | some s => if s = "" then find_place_id (.arr fl) 0 else some s
  | none => find_place_id (.arr fl) 0

/-- Extracted place candidate (the dict returned by `extract_place_info`). -/
structure PlaceCandidate where
  feature_id : SValue
  name : SValue
  description : Option SValue
  lat : Option ℚ
  lng : Option ℚ
  place_id : Option String

/-- Model of `extract_place_info(feature_record)` (source lines 185–251).
A record shorter than 2 elements raises `IndexError` in the source, which the
blanket `except` turns into `None`; a non-list fields entry returns `None`;
a candidate is returned only when the scanned name is truthy. -/
def extract_place_info (v : SValue) : Option PlaceCandidate :=
  match v with
  | .arr l =>
      if l.length < 2 then none
      else
        match (if 5 < l.length then l.getD 5 .null else .arr []) with
        | .arr fl =>
            let co := match l.getD 1 .null with
              | .arr g => find_coordinates (.arr g) 0
              | _ => none
            let st := scanFields fl
            match st.name with
            | some nm =>
                if pyTruthy nm then
                  some { feature_id := l.getD 0 .null, name := nm,
                         description := st.description,
                         lat := co.map Prod.fst, lng := co.map Prod.snd,
                         place_id := extractPid fl }
                else none
            | none => none
        | _ => none
  | _ => none

/-- Rounding of a rational to the nearest integer with ties-to-even
(Python's `round` mode), used to model `round(x, 5)` exactly.  With
`f = ⌊x⌋`, the fractional part `x - f` is compared against `1/2` by
comparing `2 * (num - f * den)` against `den`. -/
def pyRoundInt (x : ℚ) : ℤ :=
  let d : ℤ := (x.den : ℤ)
  let f : ℤ := x.num.fdiv d
  let r2 : ℤ := 2 * (x.num - f * d)
  if r2 < d then f
  else if d < r2 then f + 1
  else if f % 2 = 0 then f else f + 1

/-- Product `x * 10^5` computed on the numerator (equal to `x * 100000`
since `mkRat` normalizes). -/
def scaleUp5 (x : ℚ) : ℚ :=
  mkRat (x.num * 100000) x.den

/-- Model of `round(x, 5)` on the exact-rational number model. -/
def pyRound5 (x : ℚ) : ℚ :=
  mkRat (pyRoundInt (scaleUp5 x)) 100000

/-- Model of `round_coordinates(lat, lng, precision=5)` (source lines
299–308): `None` when either coordinate is missing, otherwise the pair of
coordinates rounded to 5 decimal places. -/
def round_coordinates (lat lng : Option ℚ) : Option (ℚ × ℚ) :=
  match lat, lng with
  | some a, some b => some (pyRound5 a, pyRound5 b)
  | _, _ => none

/-- Catalog entry of `map.json` as accessed by `update_map_json`: the
optional `coordinates` list (stored `[lng, lat]`) and the optional
`googlePlaceId` field (`none` models key absence). -/
structure PlaceData where
  coordinates : Option (List ℚ)
  googlePlaceId : Option String

/-- Summary counters of `update_map_json`. -/
structure MergeCounts where
  updated : ℕ
  already_has : ℕ
  not_matched : ℕ

/-- Association-list read modelling Python dict lookup on coordinate keys
(the builder prepends, so the first hit is the last write). -/
def alGet (m : List ((ℚ × ℚ) × String × SValue)) (k : ℚ × ℚ) : Option (String × SValue) :=
  match m with
  | [] => none
  | (k2, v) :: rest => if k = k2 then some v else alGet rest k

/-- Lookup builder of `update_map_json` (source lines 332–341): candidates
with a truthy place id and both coordinates are keyed by their rounded
`(lat, lng)`; a later candidate with the same key overwrites the entry. -/
def buildLookup (places : List PlaceCandidate) : List ((ℚ × ℚ) × String × SValue) :=
  places.foldl (fun m p =>
    match p.place_id, p.lat, p.lng with
    | some pid, some la, some ln =>
        if pid = "" then m
        else
          match round_coordinates (some la) (some ln) with
          | some k => (k, (pid, p.name)) :: m
          | none => m
    | _, _, _ => m) []

/-- Coordinate key of a catalog entry (source lines 350–355): requires a
coordinates list of length at least 2 (`if coords and len(coords) >= 2`),
unpacks it as `[lng, lat]`, and rounds in `(lat, lng)` order. -/
def keyOf (pd : PlaceData) : Option (ℚ × ℚ) :=
  match pd.coordinates with
  | some coords =>
      if 2 ≤ coords.length then
        round_coordinates (some (coords.getD 1 0)) (some (coords.getD 0 0))
      else none
  | none => none

/-- Body of the catalog loop of `update_map_json` (source lines 349–366) for
one entry: set `googlePlaceId` and count `updated`, or count `already_has`,
or count `not_matched`; entries without a usable coordinates list are not
counted at all. -/
def updateOnePlace (lk : List ((ℚ × ℚ) × String × SValue)) (pd : PlaceData) :
    PlaceData × MergeCounts :=
  match keyOf pd with
  | some k =>
      match alGet lk k with
      | some pr =>
          match pd.googlePlaceId with
          | some _ => (pd, ⟨0, 1, 0⟩)
          | none => ({ pd with googlePlaceId := some pr.1 }, ⟨1, 0, 0⟩)
      | none => (pd, ⟨0, 0, 1⟩)
  | none => (pd, ⟨0, 0, 0⟩)

/-- Model of `update_map_json` (source lines 323–384) restricted to its
catalog mutation and counters: walk the `places` mapping, update each entry
against the lookup, and accumulate the three counters. -/
def update_map_json (lk : List ((ℚ × ℚ) × String × SValue)) :
    List (String × PlaceData) → List (String × PlaceData) × MergeCounts
  | [] => ([], ⟨0, 0, 0⟩)
  | e :: rest =>
      let r := updateOnePlace lk e.2
      let t := update_map_json lk rest
      ((e.1, r.1) :: t.1,
       ⟨r.2.updated + t.2.updated, r.2.already_has + t.2.already_has,
        r.2.not_matched + t.2.not_matched⟩)

/-- Whitespace class `\s` of the rewriting regexes (ASCII part). -/
def isPyWs (c : Char) : Bool :=
  c = ' ' || c = '\t' || c = '\n' || c = '\r' || c = '\x0b' || c = '\x0c'

/-- Word-character class `\w` used by the `\b` boundaries (ASCII part). -/
def isWordChar (c : Char) : Bool :=
  c.isAlphanum || c = '_'

/-- Whether the next character (if any) is a word character, for the closing
`\b` of a token match. -/
def headIsWord (l : List Char) : Bool :=
  match l with
  | c :: _ => isWordChar c
  | [] => false

/-- Model of `re.sub(r'\bNaN\b', 'null', s)` (source line 78): replace each
occurrence of `NaN` delimited by word boundaries; `prevWord` records whether
the previous character of the original text is a word character. -/
def subNaN (prevWord : Bool) : List Char → List Char
  | 'N' :: 'a' :: 'N' :: rest =>
      if !prevWord && !headIsWord rest then
        'n' :: 'u' :: 'l' :: 'l' :: subNaN true rest
      else
        'N' :: subNaN true ('a' :: 'N' :: rest)
  | c :: rest => c :: subNaN (isWordChar c) rest
  | [] => []

/-- Model of `re.sub(r'\bundefined\b', 'null', s)` (source line 81). -/
def subUndefined (prevWord : Bool) : List Char → List Char
  | 'u' :: 'n' :: 'd' :: 'e' :: 'f' :: 'i' :: 'n' :: 'e' :: 'd' :: rest =>
      if !prevWord && !headIsWord rest then
        'n' :: 'u' :: 'l' :: 'l' :: subUndefined true rest
      else
        'u' :: subUndefined true ('n' :: 'd' :: 'e' :: 'f' :: 'i' :: 'n' :: 'e' :: 'd' :: rest)
  | c :: rest => c :: subUndefined (isWordChar c) rest
  | [] => []

/-- Model of `re.sub(r',\s*X', 'X', s)` for a closing character `X` (source
lines 84–85): `pending` buffers a candidate `,` followed by whitespace; on
the closing character the buffered text is dropped, otherwise it is flushed
unchanged. -/
def sccAux (close : Char) (pending : List Char) : List Char → List Char
  | [] => pending.reverse
  | c :: rest =>
      match pending with
      | [] =>
          if c = ',' then sccAux close [c] rest
          else c :: sccAux close [] rest
      | _ :: _ =>
          if isPyWs c then sccAux close (c :: pending) rest
          else if c = close then close :: sccAux close [] rest
          else if c = ',' then pending.reverse ++ sccAux close [c] rest
          else pending.reverse ++ (c :: sccAux close [] rest)

/-- Trailing-comma removal before a given closing character. -/
def subCommaClose (close : Char) (l : List Char) : List Char :=
  sccAux close [] l

/-- Token rewriting of `extract_page_data` (source lines 75–85): `NaN` and
`undefined` become `null`, then trailing commas before `]` and before `}` are
removed, in that order. -/
def rewriteTokens (s : String) : String :=
  String.mk (subCommaClose '}' (subCommaClose ']'
    (subUndefined false (subNaN false s.toList))))

/-- Literal `var _pageData` of both search patterns. -/
def litPageData : List Char :=
  "var _pageData".toList

/-- Consume an exact literal at the head of the text. -/
def dropLit : List Char → List Char → Option (List Char)
  | [], s => some s
  | c :: cs, d :: ds => if c = d then dropLit cs ds else none
  | _ :: _, [] => none

/-- Lazy body of `"(.+?)";`: the shortest nonempty run of characters (DOTALL)
followed by `";`. -/
def contentAuxQ (acc : List Char) : List Char → Option (List Char)
  | '"' :: ';' :: _ => some acc.reverse
  | c :: rest => contentAuxQ (c :: acc) rest
  | [] => none

/-- Nonempty lazy capture up to `";`. -/
def lazyTakeQ : List Char → Option (List Char)
  | [] => none
  | c :: rest => contentAuxQ [c] rest

/-- Lazy body of `(\[.+?\]);`: the shortest nonempty run of characters
followed by `];`. -/
def contentAuxD (acc : List Char) : List Char → Option (List Char)
  | ']' :: ';' :: _ => some acc.reverse
  | c :: rest => contentAuxD (c :: acc) rest
  | [] => none

/-- Nonempty lazy capture up to `];`. -/
def lazyTakeD : List Char → Option (List Char)
  | [] => none
  | c :: rest => contentAuxD [c] rest

/-- Attempt of the quoted pattern `var _pageData\s*=\s*"(.+?)";` at the head
of the text, returning the capture group. -/
def matchQuotedAt (s : List Char) : Option (List Char) :=
  match dropLit litPageData s with
  | some r1 =>
      match r1.dropWhile isPyWs with
      | '=' :: r3 =>
          match r3.dropWhile isPyWs with
          | '"' :: r5 => lazyTakeQ r5
          | _ => none
      | _ => none
  | none => none

/-- Attempt of the direct pattern `var _pageData\s*=\s*(\[.+?\]);` at the
head of the text, returning the capture group (brackets included). -/
def matchDirectAt (s : List Char) : Option (List Char) :=
  match dropLit litPageData s with
  | some r1 =>
      match r1.dropWhile isPyWs with
      | '=' :: r3 =>
          match r3.dropWhile isPyWs with
          | '[' :: r5 =>
              match lazyTakeD r5 with
              | some inner => some ('[' :: inner ++ [']'])
              | none => none
          | _ => none
      | _ => none
  | none => none

/-- Model of `re.search`: try the pattern at each start position from left
to right. -/
def searchAux (f : List Char → Option (List Char)) : List Char → Option (List Char)
  | [] => none
  | c :: rest =>
      match f (c :: rest) with
      | some r => some r
      | none => searchAux f rest

/-- First match of the quoted `_pageData` pattern in the document. -/
def findPageDataQuoted (html : String) : Option String :=
  (searchAux matchQuotedAt html.toList).map fun l => String.mk l

/-- First match of the direct-array `_pageData` pattern in the document. -/
def findPageDataDirect (html : String) : Option String :=
  (searchAux matchDirectAt html.toList).map fun l => String.mk l

/-- Failure modes of `extract_page_data`: the `ValueError` when no pattern
matches, and the `json.JSONDecodeError` (with the first 10000 characters of
the rewritten text, the diagnostic payload) when strict parsing fails. -/
inductive PageDataError where
  | notFound : PageDataError
  | malformedLiteral (snippet : String) : PageDataError

/-- Model of `extract_page_data(html)` (source lines 44–96), parametrised by
the stdlib collaborators: `decode` models `str.decode('unicode_escape')`
(applied only to the quoted form) and `parse` models strict `json.loads`. -/
def extract_page_data (decode : String → String) (parse : String → Option SValue)
    (html : String) : Except PageDataError SValue :=
  let raw : Option String :=
    match findPageDataQuoted html with
    | some r => some (decode r)
    | none => findPageDataDirect html
  match raw with
  | none => .error .notFound
  | some rd =>
      let jd := rewriteTokens rd
      match parse jd with
      | some v => .ok v
      | none => .error (.malformedLiteral (jd.take 10000))

/-- Fields list of the end-to-end scenario record. -/
def eiffelFields : List SValue :=
  [.arr [.str "name", .arr [.str "Eiffel Tower"], .num 1],
   .arr [.null, .arr [.str "ChIJLU7jZClu5kcR4PcOOO6p3I0", .bool true], .num 1]]

/-- Element list of the end-to-end scenario FeatureRecord. -/
def eiffelList : List SValue :=
  [.str "1A2B3C4D5E6F7081",
   .arr [.arr [.num (mkRat 4885837 100000), .num (mkRat 229448 100000)]],
   .null, .null, .num 0,
   .arr eiffelFields,
   .arr [], .num 0]

/-- End-to-end scenario FeatureRecord of the spec. -/
def eiffelRecord : SValue :=
  .arr eiffelList

/-- Candidate the Field Extractor produces for `eiffelRecord`. -/
def eiffelCand : PlaceCandidate :=
  { feature_id := .str "1A2B3C4D5E6F7081", name := .str "Eiffel Tower",
    description := none, lat := some (mkRat 4885837 100000), lng := some (mkRat 229448 100000),
    place_id := some "ChIJLU7jZClu5kcR4PcOOO6p3I0" }

/-- One-entry catalog of the end-to-end scenario (coordinates stored
`[lng, lat]`, no existing identifier). -/
def eiffelCatalog : List (String × PlaceData) :=
  [("eiffel-tower", { coordinates := some [mkRat 229448 100000, mkRat 4885837 100000], googlePlaceId := none })]

/-- Synthetically nested structure of the given depth (each level a
one-element sequence). -/
def deepNest : ℕ → SValue
  | 0 => .arr []
  | n + 1 => .arr [deepNest n]

/-- Sequence whose first element is 16 uppercase-hex characters followed by a
trailing newline: accepted by the code's regex but not by the spec's
"exactly 16 characters" wording. -/
def newlineHexRecord : SValue :=
  .arr [.str "1A2B3C4D5E6F7081\n", .null, .null, .null, .null, .null]

/-- Minimal sequence matching the feature-record shape test. -/
def plainRecord : SValue :=
  .arr [.str "44A273877D20D12D", .null, .null, .null, .null, .null]

/-- FeatureRecord whose fields hold only a description tuple. -/
def descOnlyRecord : SValue :=
  .arr [.str "44A273877D20D12D", .arr [], .null, .null, .num 0,
        .arr [.arr [.str "description", .arr [.str "a nice place"], .num 1]],
        .arr [], .num 0]

/-- FeatureRecord whose only name tuple carries the empty string. -/
def emptyNameRecord : SValue :=
  .arr [.str "44A273877D20D12D", .arr [.arr [.num (mkRat 4885837 100000), .num (mkRat 229448 100000)]],
        .null, .null, .num 0,
        .arr [.arr [.str "name", .arr [.str ""], .num 1]],
        .arr [], .num 0]

/-- Same record with no name tuple at all. -/
def noNameRecord : SValue :=
  .arr [.str "44A273877D20D12D", .arr [.arr [.num (mkRat 4885837 100000), .num (mkRat 229448 100000)]],
        .null, .null, .num 0,
        .arr [],
        .arr [], .num 0]

/-- Field tuple recognized by the tuple scan as carrying a place id: first
element null, at least 3 elements, second element a string with a recognized
start. -/
def isPidTuple (v : SValue) : Bool :=
  match v with
  | .arr (.null :: .str s :: _ :: _) => hasPidStart s
  | _ => false

/-- Field tuple recognized by the scan as a name tuple: first element the
string `"name"`, second element a nonempty sequence. -/
def isNameTuple (v : SValue) : Bool :=
  match v with
  | .arr (.str "name" :: .arr (_ :: _) :: _) => true
  | _ => false

/-- Catalog entry that the merge counts as `updated`: key present in the
lookup and no existing identifier. -/
def updatedP (lk : List ((ℚ × ℚ) × String × SValue)) (pd : PlaceData) : Bool :=
  (match keyOf pd with
   | some k => (alGet lk k).isSome
   | none => false) && !pd.googlePlaceId.isSome

/-- Catalog entry that the merge counts as `already_has`: key present in the
lookup and an identifier already set. -/
def alreadyHasP (lk : List ((ℚ × ℚ) × String × SValue)) (pd : PlaceData) : Bool :=
  (match keyOf pd with
   | some k => (alGet lk k).isSome
   | none => false) && pd.googlePlaceId.isSome

/-- Catalog entry that the merge counts as `not_matched`: key computed but
absent from the lookup. -/
def unmatchedP (lk : List ((ℚ × ℚ) × String × SValue)) (pd : PlaceData) : Bool :=
  match keyOf pd with
  | some k => (alGet lk k).isNone
  | none => false

/-- Updating `googlePlaceId` leaves the coordinate key unchanged. -/
theorem keyOf_set_pid (pd : PlaceData) (x : Option String) :
    keyOf { pd with googlePlaceId := x } = keyOf pd := rfl

/-- Second application of the per-entry merge step: the entry is unchanged
and an entry previously updated or skipped is now counted `already_has`. -/
theorem uop_idem (lk : List ((ℚ × ℚ) × String × SValue)) (pd : PlaceData) :
    updateOnePlace lk (updateOnePlace lk pd).1 =
      ((updateOnePlace lk pd).1,
       ⟨0,
        (updateOnePlace lk pd).2.updated + (updateOnePlace lk pd).2.already_has,
        (updateOnePlace lk pd).2.not_matched⟩) := by
  rcases hk : keyOf pd with _ | k
  · simp [updateOnePlace, hk]
  · rcases hg : alGet lk k with _ | pr
    · simp [updateOnePlace, hk, hg]
    · rcases hp : pd.googlePlaceId with _ | g
      · have hk2 : keyOf { pd with googlePlaceId := some pr.1 } = some k := by
          rw [keyOf_set_pid, hk]
        simp [updateOnePlace, hk, hg, hp, hk2]
      · simp [updateOnePlace, hk, hg, hp]

/-- Per-entry counters of the merge step, expressed through the three
classification predicates. -/
theorem uop_counts (lk : List ((ℚ × ℚ) × String × SValue)) (pd : PlaceData) :
    (updateOnePlace lk pd).2.updated = (if updatedP lk pd then 1 else 0) ∧
    (updateOnePlace lk pd).2.already_has = (if alreadyHasP lk pd then 1 else 0) ∧
    (updateOnePlace lk pd).2.not_matched = (if unmatchedP lk pd then 1 else 0) := by
  rcases hk : keyOf pd with _ | k
  · simp [updateOnePlace, updatedP, alreadyHasP, unmatchedP, hk]
  · rcases hg : alGet lk k with _ | pr
    · simp [updateOnePlace, updatedP, alreadyHasP, unmatchedP, hk, hg]
    · rcases hp : pd.googlePlaceId with _ | g <;>
        simp [updateOnePlace, updatedP, alreadyHasP, unmatchedP, hk, hg, hp]

/-- Output catalog of the merge as a positional map of the per-entry step. -/
theorem umj_map (lk : List ((ℚ × ℚ) × String × SValue))
    (catalog : List (String × PlaceData)) :
    (update_map_json lk catalog).1 =
      catalog.map (fun e => (e.1, (updateOnePlace lk e.2).1)) := by
  induction catalog with
  | nil => rfl
  | cons e rest ih => simp [update_map_json, ih]

/-- The `updated` counter counts the entries classified `updated`. -/
theorem umj_updated (lk : List ((ℚ × ℚ) × String × SValue))
    (catalog : List (String × PlaceData)) :
    (update_map_json lk catalog).2.updated =
      catalog.countP (fun e => updatedP lk e.2) := by
  induction catalog with
  | nil => rfl
  | cons e rest ih =>
      simp [update_map_json, ih, List.countP_cons, (uop_counts lk e.2).1]
      rcases h : updatedP lk e.2 <;> (simp [h]; try omega)

/-- The `already_has` counter counts the entries classified `already_has`. -/
theorem umj_already (lk : List ((ℚ × ℚ) × String × SValue))
    (catalog : List (String × PlaceData)) :
    (update_map_json lk catalog).2.already_has =
      catalog.countP (fun e => alreadyHasP lk e.2) := by
  induction catalog with
  | nil => rfl
  | cons e rest ih =>
      simp [update_map_json, ih, List.countP_cons, (uop_counts lk e.2).2.1]
      rcases h : alreadyHasP lk e.2 <;> (simp [h]; try omega)

/-- The `not_matched` counter counts the entries classified `not_matched`. -/
theorem umj_unmatched (lk : List ((ℚ × ℚ) × String × SValue))
    (catalog : List (String × PlaceData)) :
    (update_map_json lk catalog).2.not_matched =
      catalog.countP (fun e => unmatchedP lk e.2) := by
  induction catalog with
  | nil => rfl
  | cons e rest ih =>
      simp [update_map_json, ih, List.countP_cons, (uop_counts lk e.2).2.2]
      rcases h : unmatchedP lk e.2 <;> (simp [h]; try omega)

/-- C1: applying the Coordinate Matcher/Merger twice with the same candidate
set on the same starting catalog yields a catalog identical to applying it
once; the second application reports zero further updates, every previously
updated entry now counted `already_has` (and the other counters repeat). -/
theorem c1_matcher_idempotent (cs : List PlaceCandidate)
    (catalog : List (String × PlaceData)) :
    (update_map_json (buildLookup cs)
        (update_map_json (buildLookup cs) catalog).1).1 =
      (update_map_json (buildLookup cs) catalog).1 ∧
    (update_map_json (buildLookup cs)
        (update_map_json (buildLookup cs) catalog).1).2.updated = 0 ∧
    (update_map_json (buildLookup cs)
        (update_map_json (buildLookup cs) catalog).1).2.already_has =
      (update_map_json (buildLookup cs) catalog).2.updated +
        (update_map_json (buildLookup cs) catalog).2.already_has ∧
    (update_map_json (buildLookup cs)
        (update_map_json (buildLookup cs) catalog).1).2.not_matched =
      (update_map_json (buildLookup cs) catalog).2.not_matched := by
  generalize buildLookup cs = lk
  induction catalog with
  | nil => simp [update_map_json]
  | cons e rest ih =>
      obtain ⟨ih1, ih2, ih3, ih4⟩ := ih
      have h := uop_idem lk e.2
      refine ⟨?_, ?_, ?_, ?_⟩ <;>
        (simp [update_map_json, h, ih1, ih2, ih3, ih4]; try omega)

/-- C3: an entry already carrying an identifier keeps exactly that value
through the merge (the output catalog is the positional per-entry map, and
the per-entry step never overwrites a present `googlePlaceId`), and the
`already_has` counter counts precisely the entries whose coordinate key is in
the lookup and whose identifier is already set. -/
theorem c3_first_write_wins (cs : List PlaceCandidate)
    (catalog : List (String × PlaceData)) :
    (update_map_json (buildLookup cs) catalog).1 =
      catalog.map (fun e => (e.1, (updateOnePlace (buildLookup cs) e.2).1)) ∧
    (∀ (pd : PlaceData) (g : String), pd.googlePlaceId = some g →
        (updateOnePlace (buildLookup cs) pd).1.googlePlaceId = some g) ∧
    (update_map_json (buildLookup cs) catalog).2.already_has =
      catalog.countP (fun e => alreadyHasP (buildLookup cs) e.2) := by
  refine ⟨umj_map _ _, ?_, umj_already _ _⟩
  intro pd g hg
  rcases hk : keyOf pd with _ | k
  · simp [updateOnePlace, hk, hg]
  · rcases hl : alGet (buildLookup cs) k with _ | pr <;>
      simp [updateOnePlace, hk, hl, hg]

/-- Witness for C3 at a concrete entry with an existing identifier. -/
theorem c3_first_write_wins_witness :
    (updateOnePlace (buildLookup [])
        (PlaceData.mk (some [mkRat 1 1, mkRat 2 1]) (some "gid"))).1.googlePlaceId =
      some "gid" :=
  (c3_first_write_wins [] []).2.1 _ "gid" rfl

/-- C4: the coordinate key of a catalog entry is computed from the stored
`[lng, lat]` pair normalized to `(lat, lng)` before rounding, each counter
counts exactly the entries of its classification, and on a catalog whose
entries all carry a coordinate pair the three counters sum to the catalog
size (each entry counted exactly once). -/
theorem c4_counter_partition (cs : List PlaceCandidate)
    (catalog : List (String × PlaceData))
    (hwf : ∀ e ∈ catalog,
        ∃ c, (e : String × PlaceData).2.coordinates = some c ∧ 2 ≤ c.length) :
    (∀ (pd : PlaceData) (c : List ℚ), pd.coordinates = some c → 2 ≤ c.length →
        keyOf pd = some (pyRound5 (c.getD 1 0), pyRound5 (c.getD 0 0))) ∧
    (update_map_json (buildLookup cs) catalog).2.updated =
      catalog.countP (fun e => updatedP (buildLookup cs) e.2) ∧
    (update_map_json (buildLookup cs) catalog).2.already_has =
      catalog.countP (fun e => alreadyHasP (buildLookup cs) e.2) ∧
    (update_map_json (buildLookup cs) catalog).2.not_matched =
      catalog.countP (fun e => unmatchedP (buildLookup cs) e.2) ∧
    (update_map_json (buildLookup cs) catalog).2.updated +
        (update_map_json (buildLookup cs) catalog).2.already_has +
        (update_map_json (buildLookup cs) catalog).2.not_matched =
      catalog.length := by
  refine ⟨?_, umj_updated _ _, umj_already _ _, umj_unmatched _ _, ?_⟩
  · intro pd c hc hl
    simp [keyOf, hc, hl, round_coordinates]
  · generalize buildLookup cs = lk
    induction catalog with
    | nil => rfl
    | cons e rest ih =>
        have hrest := ih (fun x hx => hwf x (by simp [hx]))
        obtain ⟨c, hc, hl⟩ := hwf e (by simp)
        have hk : ∃ k, keyOf e.2 = some k := by
          refine ⟨(pyRound5 (c.getD 1 0), pyRound5 (c.getD 0 0)), ?_⟩
          simp [keyOf, hc, hl, round_coordinates]
        obtain ⟨k, hk⟩ := hk
        obtain ⟨h1, h2, h3⟩ := uop_counts lk e.2
        have hone :
            (updateOnePlace lk e.2).2.updated +
              (updateOnePlace lk e.2).2.already_has +
              (updateOnePlace lk e.2).2.not_matched = 1 := by
          rw [h1, h2, h3]
          rcases hg : alGet lk k with _ | pr <;>
            rcases hp : e.2.googlePlaceId with _ | g <;>
              simp [updatedP, alreadyHasP, unmatchedP, hk, hg, hp]
        simp only [update_map_json, List.length_cons]
        omega

/-- Witness for C4 on a one-entry catalog with a coordinate pair. -/
theorem c4_counter_partition_witness :
    (update_map_json (buildLookup [eiffelCand]) eiffelCatalog).2.updated +
        (update_map_json (buildLookup [eiffelCand]) eiffelCatalog).2.already_has +
        (update_map_json (buildLookup [eiffelCand]) eiffelCatalog).2.not_matched = 1 :=
  (c4_counter_partition [eiffelCand] eiffelCatalog (by
    intro e he
    simp only [eiffelCatalog, List.mem_singleton] at he
    subst he
    exact ⟨[mkRat 229448 100000, mkRat 4885837 100000], rfl, by decide⟩)).2.2.2.2

/-- C2: end-to-end scenario.  The locator yields exactly the Eiffel record,
extraction yields exactly one candidate with name `"Eiffel Tower"`, latitude
`48.85837`, longitude `2.29448` and the `ChIJ…` identifier, and merging it
against a one-entry catalog with coordinates `[2.29448, 48.85837]` and no
existing identifier sets that identifier and reports `updated = 1`,
`already_has = 0`, `not_matched = 0`. -/
theorem c2_end_to_end :
    (48.85837 : ℚ) = mkRat 4885837 100000 ∧
    (2.29448 : ℚ) = mkRat 229448 100000 ∧
    find_feature_records eiffelRecord 0 = [eiffelRecord] ∧
    (find_feature_records eiffelRecord 0).filterMap extract_place_info = [eiffelCand] ∧
    eiffelCand.name = .str "Eiffel Tower" ∧
    eiffelCand.lat = some (mkRat 4885837 100000) ∧
    eiffelCand.lng = some (mkRat 229448 100000) ∧
    eiffelCand.place_id = some "ChIJLU7jZClu5kcR4PcOOO6p3I0" ∧
    update_map_json (buildLookup [eiffelCand]) eiffelCatalog =
      ([("eiffel-tower",
          PlaceData.mk (some [mkRat 229448 100000, mkRat 4885837 100000])
            (some "ChIJLU7jZClu5kcR4PcOOO6p3I0"))],
       ⟨1, 0, 0⟩) := by
  refine ⟨?_, ?_, rfl, rfl, rfl, rfl, rfl, rfl, rfl⟩ <;>
    · rw [Rat.mkRat_eq_div]; norm_num

/-- Characterisation of the feature-id regex: exactly 16 uppercase-hex
characters, or 16 such characters followed by one trailing newline. -/
theorem reMatchHex16_iff (s : String) :
    reMatchHex16 s = true ↔
      (spec_hex16 s = true ∨
        (s.toList.length = 17 ∧ (s.toList.take 16).all isUpHexDigit = true ∧
          s.toList.getD 16 ' ' = '\n')) := by
  unfold reMatchHex16 spec_hex16
  by_cases h16 : s.toList.length = 16
  · have h16L : s.length = 16 := h16
    rw [if_pos h16]
    simp [h16, h16L]
  · have h16L : ¬ s.length = 16 := h16
    rw [if_neg h16]
    by_cases h17 : s.toList.length = 17
    · have h17L : s.length = 17 := h17
      rw [if_pos h17]
      simp [h16, h16L, h17, h17L]
    · have h17L : ¬ s.length = 17 := h17
      rw [if_neg h17]
      simp [h16, h16L, h17, h17L]

/-- Characterisation of the shape test on a sequence. -/
theorem isFeatureShape_iff (l : List SValue) :
    isFeatureShape (.arr l) = true ↔
      6 ≤ l.length ∧ ∃ s, l.headD .null = .str s ∧ reMatchHex16 s = true := by
  unfold isFeatureShape
  by_cases hlen : 6 ≤ l.length
  · simp only [if_pos hlen, hlen, true_and]
    cases h : l.headD .null <;> simp [h]
  · simp [hlen]

/-- C5 counterexample: a sequence whose first element is 16 uppercase-hex
characters followed by a trailing newline is yielded as a FeatureRecord by
the locator, although that string is not "exactly 16 characters from the
uppercase hex alphabet". -/
theorem c5_shape_test_counterexample :
    find_feature_records newlineHexRecord 0 = [newlineHexRecord] ∧
    spec_hex16 "1A2B3C4D5E6F7081\n" = false :=
  ⟨rfl, rfl⟩

/-- C5 (amended): at depth at most 20, a sequence is yielded as-is iff it has
at least 6 elements and its first element is a string of exactly 16
uppercase-hex characters or such a string followed by one trailing newline
(the regex `$` anchor also matches before a final newline); a non-matching
sequence has exactly its sequence-valued elements searched recursively at the
next depth, and scalar values yield no results. -/
theorem c5_shape_test_amended (l : List SValue) (d : ℕ) (hd : d ≤ 20)
    (b : Bool) (q : ℚ) (s0 : String) :
    (isFeatureShape (.arr l) = true → find_feature_records (.arr l) d = [.arr l]) ∧
    (isFeatureShape (.arr l) = false →
        find_feature_records (.arr l) d =
          (l.map (fun x => match x with
              | .arr m => find_feature_records (.arr m) (d + 1)
              | _ => [])).flatten) ∧
    (isFeatureShape (.arr l) = true ↔
        6 ≤ l.length ∧ ∃ s, l.headD .null = .str s ∧
          (spec_hex16 s = true ∨
            (s.toList.length = 17 ∧ (s.toList.take 16).all isUpHexDigit = true ∧
              s.toList.getD 16 ' ' = '\n'))) ∧
    find_feature_records .null d = [] ∧
    find_feature_records (.bool b) d = [] ∧
    find_feature_records (.num q) d = [] ∧
    find_feature_records (.str s0) d = [] := by
  obtain ⟨m, hm⟩ : ∃ m, 21 - d = m + 1 := ⟨20 - d, by omega⟩
  have hm2 : 21 - (d + 1) = m := by omega
  refine ⟨?_, ?_, ?_, ?_, ?_, ?_, ?_⟩
  · intro h
    simp [find_feature_records, hm, ffr, h]
  · intro h
    simp only [find_feature_records, hm, ffr, h, if_neg, Bool.false_eq_true,
      not_false_eq_true, hm2]
  · constructor
    · intro h
      obtain ⟨hlen, s, hs, hre⟩ := (isFeatureShape_iff l).1 h
      exact ⟨hlen, s, hs, (reMatchHex16_iff s).1 hre⟩
    · rintro ⟨hlen, s, hs, hc⟩
      exact (isFeatureShape_iff l).2 ⟨hlen, s, hs, (reMatchHex16_iff s).2 hc⟩
  · rcases h21 : 21 - d with _ | m2 <;> simp [find_feature_records, h21, ffr]
  · rcases h21 : 21 - d with _ | m2 <;> simp [find_feature_records, h21, ffr]
  · rcases h21 : 21 - d with _ | m2 <;> simp [find_feature_records, h21, ffr]
  · rcases h21 : 21 - d with _ | m2 <;> simp [find_feature_records, h21, ffr]

/-- Witness for the amended C5 at a concrete matching record and depth 0. -/
theorem c5_shape_test_witness :
    find_feature_records plainRecord 0 = [plainRecord] :=
  (c5_shape_test_amended
      [SValue.str "44A273877D20D12D", .null, .null, .null, .null, .null]
      0 (by decide) false 0 "").1 rfl

/-- C6: the locator returns an empty result as soon as the depth counter
exceeds 20, and on a synthetically nested structure of depth 1000 (with no
matching record) it terminates with no results. -/
theorem c6_depth_bound :
    (∀ (v : SValue) (d : ℕ), 20 < d → find_feature_records v d = []) ∧
    find_feature_records (deepNest 1000) 0 = [] := by
  have hdeep : ∀ (fuel n : ℕ), ffr fuel (deepNest n) = [] := by
    intro fuel
    induction fuel with
    | zero => intro n; rfl
    | succ m ih =>
        intro n
        cases n with
        | zero => simp [deepNest, ffr, isFeatureShape]
        | succ k =>
            have hk : ∃ dl, deepNest k = .arr dl := by
              cases k <;> exact ⟨_, rfl⟩
            obtain ⟨dl, hdl⟩ := hk
            have := ih k
            rw [hdl] at this
            simp [deepNest, ffr, isFeatureShape, hdl, this]
  constructor
  · intro v d hd
    have h0 : 21 - d = 0 := by omega
    simp [find_feature_records, h0, ffr]
  · exact hdeep (21 - 0) 1000

/-- Witness for C6 at depth 21. -/
theorem c6_depth_bound_witness :
    find_feature_records (SValue.str "x") 21 = [] :=
  c6_depth_bound.1 (SValue.str "x") 21 (by decide)

/-- A field tuple that is not a place-id tuple leaves the scanned place id
unchanged. -/
theorem scanField_keeps_pid (st : ScanState) (v : SValue)
    (h : isPidTuple v = false) : (scanField st v).place_id = st.place_id := by
  rcases v with _ | b | q | s | l
  · rfl
  · rfl
  · rfl
  · rfl
  · rcases l with _ | ⟨fn, rest0⟩
    · rfl
    · rcases rest0 with _ | ⟨snd, rest⟩
      · rfl
      · rcases fn with _ | b2 | q2 | fname | l2
        · rcases rest with _ | ⟨r0, rest2⟩
          · rfl
          · rcases snd with _ | b3 | q3 | s3 | l3
            · rfl
            · rfl
            · rfl
            · simp only [isPidTuple] at h
              simp [scanField, h]
            · rfl
        · rfl
        · rfl
        · simp only [scanField]
          split_ifs <;>
            rcases snd with _ | b3 | q3 | s3 | _ | ⟨v0, vs⟩ <;> rfl
        · rfl

/-- A run of non-place-id tuples preserves the scanned place id. -/
theorem foldl_keeps_pid (post : List SValue) (st : ScanState)
    (h : ∀ v ∈ post, isPidTuple v = false) :
    (post.foldl scanField st).place_id = st.place_id := by
  induction post generalizing st with
  | nil => rfl
  | cons x xs ih =>
      rw [List.foldl_cons, ih _ (fun v hv => h v (by simp [hv])),
        scanField_keeps_pid st x (h x (by simp))]

/-- Every identifier returned by the recursive search bears a recognized
start. -/
theorem fpi_start : ∀ (fuel : ℕ) (v : SValue) (r : String),
    fpi fuel v = some r → hasPidStart r = true := by
  intro fuel
  induction fuel with
  | zero => intro v r h; exact absurd h (by simp [fpi])
  | succ m ih =>
      intro v r h
      rcases v with _ | b | q | s | l
      · exact absurd h (by simp [fpi])
      · exact absurd h (by simp [fpi])
      · exact absurd h (by simp [fpi])
      · simp only [fpi] at h
        rcases hs : hasPidStart s with _ | _
        · rw [hs] at h; simp at h
        · rw [hs] at h
          simp only [if_true] at h
          injection h with h2
          subst h2
          exact hs
      · simp only [fpi] at h
        induction l with
        | nil => simp at h
        | cons x xs ihl =>
            simp only [List.foldr_cons] at h
            rcases hx : fpi m x with _ | r2
            · simp only [hx] at h; exact ihl h
            · simp only [hx] at h
              by_cases hr2 : r2 = ""
              · rw [if_pos hr2] at h; exact ihl h
              · rw [if_neg hr2] at h
                injection h with h2
                subst h2
                exact ih x _ hx

/-- C7: a field tuple with null first element, at least 3 elements and a
second element bearing a recognized start sets the place id to exactly that
string (provided no later tuple overwrites it); when the tuple scan finds
nothing the extractor falls back to the recursive search of the whole fields
subtree; and any identifier the recursive search returns bears one of the
two recognized starts. -/
theorem c7_place_id_rules :
    (∀ (pre post rest2 : List SValue) (third : SValue) (s : String),
        hasPidStart s = true →
        (∀ v ∈ post, isPidTuple v = false) →
        extractPid (pre ++ (SValue.arr (.null :: .str s :: third :: rest2)) :: post) =
          some s) ∧
    (∀ fl : List SValue, (scanFields fl).place_id = none →
        extractPid fl = find_place_id (.arr fl) 0) ∧
    (∀ (v : SValue) (d : ℕ) (r : String),
        find_place_id v d = some r → hasPidStart r = true) ∧
    (∀ (x : SValue) (xs : List SValue) (d : ℕ) (r : String), d ≤ 15 →
        find_place_id x (d + 1) = some r →
        find_place_id (.arr (x :: xs)) d = some r) := by
  refine ⟨?_, ?_, ?_, ?_⟩
  · intro pre post rest2 third s hs hpost
    have hscan :
        (scanFields (pre ++ (SValue.arr (.null :: .str s :: third :: rest2)) :: post)).place_id =
          some s := by
      unfold scanFields
      rw [List.foldl_append, List.foldl_cons,
        foldl_keeps_pid post _ hpost]
      simp [scanField, hs]
    have hne : ¬ s = "" := by
      intro he
      rw [he] at hs
      exact absurd hs (by decide)
    unfold extractPid
    rw [hscan]
    simp [hne]
  · intro fl h
    unfold extractPid
    rw [h]
  · intro v d r h
    exact fpi_start (16 - d) v r h
  · intro x xs d r hd h
    have hne : ¬ r = "" := by
      intro he
      have := fpi_start (16 - (d + 1)) x r h
      rw [he] at this
      exact absurd this (by decide)
    obtain ⟨m, hm⟩ : ∃ m, 16 - d = m + 1 := ⟨15 - d, by omega⟩
    have hm2 : 16 - (d + 1) = m := by omega
    unfold find_place_id at h ⊢
    rw [hm2] at h
    rw [hm]
    simp only [fpi, List.foldr_cons, h, if_neg hne]

/-- Witness for C7 at a concrete one-tuple fields list with an `Ej` id. -/
theorem c7_place_id_rules_witness :
    extractPid [SValue.arr [.null, .str "Ej0yMyBSdWUgZGUgbGEgUGFpeA", .bool true]] =
      some "Ej0yMyBSdWUgZGUgbGEgUGFpeA" :=
  c7_place_id_rules.1 [] [] [] (SValue.bool true) "Ej0yMyBSdWUgZGUgbGEgUGFpeA"
    (by decide) (by simp)

/-- A field tuple that is not a name tuple leaves the scanned name
unchanged. -/
theorem scanField_keeps_name (st : ScanState) (v : SValue)
    (h : isNameTuple v = false) : (scanField st v).name = st.name := by
  rcases v with _ | b | q | s | l
  · rfl
  · rfl
  · rfl
  · rfl
  · rcases l with _ | ⟨fn, rest0⟩
    · rfl
    · rcases rest0 with _ | ⟨snd, rest⟩
      · rfl
      · rcases fn with _ | b2 | q2 | fname | l2
        · rcases rest with _ | ⟨r0, rest2⟩
          · rfl
          · rcases snd with _ | b3 | q3 | s3 | l3
            · rfl
            · rfl
            · rfl
            · simp only [scanField]
              split_ifs <;> rfl
            · rfl
        · rfl
        · rfl
        · simp only [scanField]
          split_ifs with h1 h2
          · subst h1
            rcases snd with _ | b3 | q3 | s3 | l3
            · rfl
            · rfl
            · rfl
            · rfl
            · rcases l3 with _ | ⟨v0, vs⟩
              · rfl
              · simp [isNameTuple] at h
          · rcases snd with _ | b3 | q3 | s3 | l3
            · rfl
            · rfl
            · rfl
            · rfl
            · rcases l3 with _ | ⟨v0, vs⟩ <;> rfl
          · rfl
        · rfl

/-- Either the field scan leaves the name unchanged, or some field of the
list is a name tuple. -/
theorem scan_name_source : ∀ (l : List SValue) (st : ScanState),
    (l.foldl scanField st).name = st.name ∨ ∃ f ∈ l, isNameTuple f = true := by
  intro l
  induction l with
  | nil => intro st; left; rfl
  | cons x xs ih =>
      intro st
      rcases hx : isNameTuple x with _ | _
      · rcases ih (scanField st x) with h | ⟨f, hf, hft⟩
        · left
          rw [List.foldl_cons, h, scanField_keeps_name st x hx]
        · right; exact ⟨f, by simp [hf], hft⟩
      · right; exact ⟨x, by simp, hx⟩

/-- C8: the extractor emits a candidate only when a truthy name was scanned
from a name tuple of the record's fields, and a record whose fields hold
only a description tuple yields no candidate (returning `none`, not an
error). -/
theorem c8_name_required :
    (∀ (l : List SValue) (c : PlaceCandidate),
        extract_place_info (.arr l) = some c →
        pyTruthy c.name = true ∧
        ∃ fl, (if 5 < l.length then l.getD 5 .null else .arr []) = .arr fl ∧
          ∃ f ∈ fl, isNameTuple f = true) ∧
    extract_place_info descOnlyRecord = none := by
  constructor
  · intro l c h
    simp only [extract_place_info] at h
    by_cases hl : l.length < 2
    · rw [if_pos hl] at h
      exact absurd h (by simp)
    · rw [if_neg hl] at h
      rcases hf : (if 5 < l.length then l.getD 5 .null else .arr []) with _ | b | q | s | fl
      · simp only [hf] at h; exact absurd h (by simp)
      · simp only [hf] at h; exact absurd h (by simp)
      · simp only [hf] at h; exact absurd h (by simp)
      · simp only [hf] at h; exact absurd h (by simp)
      simp only [hf] at h
      rcases hn : (scanFields fl).name with _ | nm
      · simp only [hn] at h
        exact absurd h (by simp)
      · simp only [hn] at h
        by_cases ht : pyTruthy nm = true
        · rw [if_pos ht] at h
          injection h with h2
          subst h2
          refine ⟨ht, fl, rfl, ?_⟩
          rcases scan_name_source fl ⟨none, none, none⟩ with hno | hex
          · unfold scanFields at hn
            rw [hno] at hn
            exact absurd hn (by simp)
          · exact hex
        · rw [if_neg ht] at h
          exact absurd h (by simp)
  · rfl

/-- Witness for C8 at the end-to-end record. -/
theorem c8_name_required_witness :
    pyTruthy eiffelCand.name = true :=
  (c8_name_required.1 eiffelList eiffelCand rfl).1

/-- C9: the Literal Normalizer fails with `notFound` when neither form of
the assignment is present, fails with `malformedLiteral` (carrying the first
10000 characters of the rewritten text) when the rewritten text does not
parse strictly, succeeds exactly with the strict parse of the rewritten
text, and every success comes from one of the two matched forms. -/
theorem c9_normalizer_contract (decode : String → String)
    (parse : String → Option SValue) (html : String) :
    (findPageDataQuoted html = none → findPageDataDirect html = none →
        extract_page_data decode parse html = .error .notFound) ∧
    (∀ raw, findPageDataQuoted html = some raw →
        (parse (rewriteTokens (decode raw)) = none →
            extract_page_data decode parse html =
              .error (.malformedLiteral ((rewriteTokens (decode raw)).take 10000))) ∧
        (∀ v, parse (rewriteTokens (decode raw)) = some v →
            extract_page_data decode parse html = .ok v)) ∧
    (findPageDataQuoted html = none → ∀ raw, findPageDataDirect html = some raw →
        (parse (rewriteTokens raw) = none →
            extract_page_data decode parse html =
              .error (.malformedLiteral ((rewriteTokens raw).take 10000))) ∧
        (∀ v, parse (rewriteTokens raw) = some v →
            extract_page_data decode parse html = .ok v)) ∧
    (∀ v, extract_page_data decode parse html = .ok v →
        (∃ raw, findPageDataQuoted html = some raw ∧
            parse (rewriteTokens (decode raw)) = some v) ∨
        (findPageDataQuoted html = none ∧
          ∃ raw, findPageDataDirect html = some raw ∧
            parse (rewriteTokens raw) = some v)) := by
  refine ⟨?_, ?_, ?_, ?_⟩
  · intro hq hdc
    unfold extract_page_data
    simp only [hq, hdc]
  · intro raw hq
    constructor
    · intro hp
      unfold extract_page_data
      simp only [hq, hp]
    · intro v hp
      unfold extract_page_data
      simp only [hq, hp]
  · intro hq raw hdc
    constructor
    · intro hp
      unfold extract_page_data
      simp only [hq, hdc, hp]
    · intro v hp
      unfold extract_page_data
      simp only [hq, hdc, hp]
  · intro v h
    unfold extract_page_data at h
    rcases hq : findPageDataQuoted html with _ | raw
    · rcases hdc : findPageDataDirect html with _ | raw2
      · simp only [hq, hdc] at h
        exact absurd h (by simp)
      · simp only [hq, hdc] at h
        rcases hp : parse (rewriteTokens raw2) with _ | v2
        · simp only [hp] at h
          exact absurd h (by simp)
        · simp only [hp] at h
          injection h with h2
          subst h2
          right
          exact ⟨rfl, raw2, rfl, hp⟩
    · simp only [hq] at h
      rcases hp : parse (rewriteTokens (decode raw)) with _ | v2
      · simp only [hp] at h
        exact absurd h (by simp)
      · simp only [hp] at h
        injection h with h2
        subst h2
        left
        exact ⟨raw, rfl, hp⟩

/-- Witness for C9 on a document with no `_pageData` assignment. -/
theorem c9_normalizer_contract_witness :
    extract_page_data id (fun _ => none) "no assignment here" = .error .notFound :=
  (c9_normalizer_contract id (fun _ => none) "no assignment here").1 rfl rfl

/-- C10: the truthiness test on the scanned name treats the empty string
exactly like an absent name, so a record whose only name tuple is
`["name", [""], 1]` yields no candidate, just like the same record with no
name tuple at all. -/
theorem c10_empty_name_discarded :
    pyTruthy (SValue.str "") = false ∧
    extract_place_info emptyNameRecord = none ∧
    extract_place_info emptyNameRecord = extract_place_info noNameRecord :=
  ⟨rfl, rfl, rfl⟩
